import Mathlib

/-!
Shallow embedding of the flatjson package (flatjson.go): the streaming
flattener `parseJSON`, which consumes a JSON token stream and produces a
sequence of key-value `Pair`s, plus the map/array encoders built on it.

The Go tokenizer (encoding/json.Decoder.Token) is modelled as the input:
a list of typed tokens, optionally followed by a tokenizer error (which in
Go surfaces from dec.Token() after the listed tokens). Go runtime panics
(out-of-range slice index, failed type assertion tok.(string)) are
modelled as `Option.none` outcomes of the state transition.
-/

namespace Flatjson

/-- A JSON scalar token as delivered by the tokenizer: string, number,
boolean, or null (Go: string, float64, bool, nil). -/
inductive Scalar where
  | str (s : String)
  | num (n : Int)
  | bool (b : Bool)
  | null
deriving DecidableEq, Repr

/-- A JSON token: one of the four delimiters or a scalar.  Map keys arrive
as ordinary string scalars, exactly as with encoding/json. -/
inductive Tok where
  | lbrace
  | rbrace
  | lsquare
  | rsquare
  | scalar (s : Scalar)
deriving DecidableEq, Repr

/-- Pair is a key-value Pair of JSON tokens (flatjson.go `Pair`).  The
`Value` of a pair emitted for an empty container is Go `nil`, modelled as
`Scalar.null`. -/
structure Pair where
  Key : String
  Value : Scalar
deriving DecidableEq, Repr

/-- The path separator (flatjson.go `pathd = "."`). -/
def pathd : String := "."

/-- The local state of `parseJSON`'s token loop: the accumulated pairs and
the variables `inmap`, `inarr`, `empty`, `onkey`, the array-index buffer
byte `arridx[1]`, `arrkey`, the growable `path` slice and the depth `pos`
(an int, starting at -1). -/
structure PState where
  pairs : List Pair
  inmap : Bool
  inarr : Bool
  empty : Bool
  onkey : Bool
  arridx1 : Nat
  arrkey : String
  path : List String
  pos : Int
deriving Repr

/-- Go read `path[i]` with an int index: panics (none) when out of range. -/
def geti (l : List String) (i : Int) : Option String :=
  if i < 0 then none else l[i.toNat]?

/-- Go write `path[i] = v` with an int index: panics (none) out of range. -/
def seti (l : List String) (i : Int) (v : String) : Option (List String) :=
  if 0 ≤ i ∧ i.toNat < l.length then some (l.set i.toNat v) else none

/-- Go slice `path[:n]`: panics (none) unless 0 ≤ n ≤ len(path). -/
def slicei (l : List String) (n : Int) : Option (List String) :=
  if 0 ≤ n ∧ n.toNat ≤ l.length then some (l.take n.toNat) else none

/-- The rendered 3-byte buffer `string(arridx)` where `arridx = ['[', b, ']']`. -/
def arridxStr (b : Nat) : String := "[" ++ String.singleton (Char.ofNat b) ++ "]"

/-- One iteration of `parseJSON`'s token-switch, transcribed case by case
from flatjson.go lines 136-221.  `none` models a Go runtime panic. -/
def step (st : PState) (t : Tok) : Option PState :=
  match t with
  | .lbrace =>
    -- empty = true; inmap = true; onkey = true; pos++
    let st1 := { st with empty := true, inmap := true, onkey := true, pos := st.pos + 1 }
    -- if pos == len(path) { dest = make([]string, pos*2); copy(dest, path); path = dest }
    -- since pos = len(path), dest is path padded with len(path) empty strings
    if st1.pos = (st1.path.length : Int) then
      some { st1 with path := st1.path ++ List.replicate st1.path.length "" }
    else
      some st1
  | .rbrace => do
    -- if empty && pos > 0 { pairs = append(pairs, &Pair{Key: Join(path[:pos+1], pathd)}) }
    let st1 ←
      if st.empty = true ∧ st.pos > 0 then do
        let seg ← slicei st.path (st.pos + 1)
        pure { st with pairs := st.pairs ++ [⟨String.intercalate pathd seg, Scalar.null⟩] }
      else
        pure st
    -- inmap = false; onkey = true; pos--
    pure { st1 with inmap := false, onkey := true, pos := st1.pos - 1 }
  | .lsquare => do
    -- empty = true; inarr = true; arridx[1] = '0'
    -- if pos > 0 { arrkey = path[pos] } else { arrkey = "" }
    let ak ← if st.pos > 0 then geti st.path st.pos else pure ""
    pure { st with empty := true, inarr := true, arridx1 := 48, arrkey := ak }
  | .rsquare => do
    -- if empty && pos >= 0 { pairs = append(pairs, &Pair{Key: Join(path[:pos+1], pathd)}) }
    let st1 ←
      if st.empty = true ∧ st.pos ≥ 0 then do
        let seg ← slicei st.path (st.pos + 1)
        pure { st with pairs := st.pairs ++ [⟨String.intercalate pathd seg, Scalar.null⟩] }
      else
        pure st
    -- inarr = false
    pure { st1 with inarr := false }
  | .scalar s =>
    -- default case: empty = false
    let st1 := { st with empty := false }
    if st1.onkey then
      -- path[pos] = tok.(string); onkey = false
      match s with
      | .str k => do
        let p ← seti st1.path st1.pos k
        pure { st1 with path := p, onkey := false }
      | _ => none
    else do
      -- value = tok
      let st2 ←
        if st1.inarr then do
          -- if pos < 0 { pos = 0 }
          let pos2 : Int := if st1.pos < 0 then 0 else st1.pos
          -- path[pos] = arrkey + string(arridx); arridx[1]++
          let p ← seti st1.path pos2 (st1.arrkey ++ arridxStr st1.arridx1)
          pure { st1 with path := p, pos := pos2, arridx1 := (st1.arridx1 + 1) % 256 }
        else if st1.inmap then
          pure { st1 with onkey := true }
        else
          pure st1
      -- key = Join(path[:pos+1], pathd); pairs = append(pairs, &Pair{key, value})
      let seg ← slicei st2.path (st2.pos + 1)
      pure { st2 with pairs := st2.pairs ++ [⟨String.intercalate pathd seg, s⟩] }

/-- Run the token loop over a list of tokens.  A panic (`none`) at any
token aborts the whole run. -/
def runToks (st : PState) : List Tok → Option PState
  | [] => some st
  | t :: ts =>
    match step st t with
    | none => none
    | some st2 => runToks st2 ts

/-- The initial state of `parseJSON`: zero-valued flags, `arridx = "[0]"`,
`path = make([]string, 10)`, `pos = -1`. -/
def initState : PState :=
  { pairs := [], inmap := false, inarr := false, empty := false, onkey := false,
    arridx1 := 48, arrkey := "", path := List.replicate 10 "", pos := -1 }

/-- parseJSON decodes a JSON token stream into a set of pairs.  The stream
delivers `toks` and then either EOF (`terr = none`, loop breaks and the
accumulated pairs are returned) or a tokenizer error (`terr = some e`, the
function returns `(nil, err)`, discarding all accumulated pairs).  The
outer `none` models a Go runtime panic while processing a token. -/
def parseJSON (toks : List Tok) (terr : Option String) : Option (Except String (List Pair)) :=
  match runToks initState toks with
  | none => none
  | some st =>
    some (match terr with
      | some e => Except.error e
      | none => Except.ok st.pairs)

/-- A JSON document: a scalar, an array of documents, or an object given
as an ordered list of fields.  Used to describe concrete inputs and to
state document-level properties. -/
inductive J where
  | s (sc : Scalar)
  | arr (xs : List J)
  | obj (fs : List (String × J))

mutual

/-- The token stream a conformant JSON tokenizer (encoding/json) delivers
for a document, in document order. -/
def toToks : J → List Tok
  | .s sc => [Tok.scalar sc]
  | .arr xs => Tok.lsquare :: (toToksList xs ++ [Tok.rsquare])
  | .obj fs => Tok.lbrace :: (toToksFields fs ++ [Tok.rbrace])

/-- Token streams of the elements of an array, concatenated. -/
def toToksList : List J → List Tok
  | [] => []
  | j :: js => toToks j ++ toToksList js

/-- Token streams of the fields of an object: each field contributes its
key as a string token followed by the value's tokens. -/
def toToksFields : List (String × J) → List Tok
  | [] => []
  | (k, j) :: fs => Tok.scalar (Scalar.str k) :: (toToks j ++ toToksFields fs)

end

mutual

/-- Modelled from the spec: the number of leaf positions of a value in
non-root position — each scalar counts one, each empty container counts
one, each non-empty container counts the sum over its children. -/
def leafsAt : J → Nat
  | .s _ => 1
  | .arr [] => 1
  | .arr (j :: js) => leafsAt j + leafsAtList js
  | .obj [] => 1
  | .obj (f :: fs) => leafsAt f.2 + leafsAtFields fs

/-- Leaf positions of a list of array elements. -/
def leafsAtList : List J → Nat
  | [] => 0
  | j :: js => leafsAt j + leafsAtList js

/-- Leaf positions of a list of object fields. -/
def leafsAtFields : List (String × J) → Nat
  | [] => 0
  | f :: fs => leafsAt f.2 + leafsAtFields fs

end

/-- Modelled from the spec: leaf positions of the document root — an empty
root container contributes zero; otherwise as in non-root position. -/
def leafPositions : J → Nat
  | .arr [] => 0
  | .obj [] => 0
  | j => leafsAt j

/-- A Go value handed to EncodeMap/EncodeArray: either one whose standard
JSON encoding succeeds (producing a document's token stream when re-read),
or one the standard encoder rejects (e.g. a channel), with its error. -/
inductive GoValue where
  | json (j : J)
  | unsupported (msg : String)

/-- json.NewEncoder(buf).Encode(v): the token stream of the standard JSON
encoding of a Go value, or the encoder's error. -/
def goEncode : GoValue → Except String (List Tok)
  | .json j => Except.ok (toToks j)
  | .unsupported msg => Except.error msg

/-- Insert a key into Go's aux map: `aux[p.Key] = p.Value`, last write wins. -/
def upsert : List (String × Scalar) → String → Scalar → List (String × Scalar)
  | [], k, v => [(k, v)]
  | (k', v') :: t, k, v => if k' = k then (k, v) :: t else (k', v') :: upsert t k v

/-- Insertion into a key-sorted association list. -/
def insertByKey (x : String × Scalar) : List (String × Scalar) → List (String × Scalar)
  | [] => [x]
  | y :: ys => if x.1 ≤ y.1 then x :: y :: ys else y :: insertByKey x ys

/-- Sort an association list by key, as json.Marshal does for a Go map. -/
def sortByKey : List (String × Scalar) → List (String × Scalar)
  | [] => []
  | x :: xs => insertByKey x (sortByKey xs)

/-- mapPairs.MarshalJSON: build `aux[p.Key] = p.Value` over the pairs in
order (last write wins) and marshal the map (keys sorted). -/
def mapPairsMarshalJSON (ps : List Pair) : List (String × Scalar) :=
  sortByKey (ps.foldl (fun m p => upsert m p.Key p.Value) [])

/-- arrayPairs.MarshalJSON: a list of two-element arrays [Key, Value] in
emission order. -/
def arrayPairsMarshalJSON (ps : List Pair) : List (String × Scalar) :=
  ps.map (fun p => (p.Key, p.Value))

/-- Encoder.ConvertMap: parseJSON on the reader's token stream, then the
flat-map rendering of the pairs; errors surfaced, panics propagate. -/
def ConvertMap (ts : List Tok) (terr : Option String) :
    Option (Except String (List (String × Scalar))) :=
  match parseJSON ts terr with
  | none => none
  | some (.error e) => some (Except.error e)
  | some (.ok ps) => some (Except.ok (mapPairsMarshalJSON ps))

/-- Encoder.ConvertArray: parseJSON on the reader's token stream, then the
flat-array rendering of the pairs. -/
def ConvertArray (ts : List Tok) (terr : Option String) :
    Option (Except String (List (String × Scalar))) :=
  match parseJSON ts terr with
  | none => none
  | some (.error e) => some (Except.error e)
  | some (.ok ps) => some (Except.ok (arrayPairsMarshalJSON ps))

/-- Encoder.EncodeMap: JSON-encode the value into a buffer (failures
surfaced), parseJSON the buffer (a complete well-tokenized stream, so no
tokenizer error), then the flat-map rendering. -/
def EncodeMap (v : GoValue) : Option (Except String (List (String × Scalar))) :=
  match goEncode v with
  | .error e => some (Except.error e)
  | .ok ts =>
    match parseJSON ts none with
    | none => none
    | some (.error e) => some (Except.error e)
    | some (.ok ps) => some (Except.ok (mapPairsMarshalJSON ps))

/-- Encoder.EncodeArray: JSON-encode the value into a buffer, parseJSON
the buffer, then the flat-array rendering. -/
def EncodeArray (v : GoValue) : Option (Except String (List (String × Scalar))) :=
  match goEncode v with
  | .error e => some (Except.error e)
  | .ok ts =>
    match parseJSON ts none with
    | none => none
    | some (.error e) => some (Except.error e)
    | some (.ok ps) => some (Except.ok (arrayPairsMarshalJSON ps))

theorem runToks_append (a b : List Tok) : ∀ st : PState,
    runToks st (a ++ b) = (runToks st a).bind (fun st2 => runToks st2 b) := by
  induction a with
  | nil => intro st; simp [runToks]
  | cons t ts ih =>
    intro st
    simp only [List.cons_append, runToks]
    cases step st t with
    | none => simp
    | some st2 => simpa using ih st2

theorem runToks_cons (st : PState) (t : Tok) (ts : List Tok) :
    runToks st (t :: ts) =
      match step st t with
      | none => none
      | some st2 => runToks st2 ts := rfl

theorem take_one_set (l : List String) (k : String) (h : 0 < l.length) :
    (l.set 0 k).take 1 = [k] := by
  cases l with
  | nil => simp at h
  | cons a t => simp [List.set]

theorem step_key (st : PState) (k : String)
    (hon : st.onkey = true) (hpos : st.pos = 0) (hlen : 0 < l.length)
    (hl : st.path = l) :
    step st (Tok.scalar (Scalar.str k)) =
      some { st with empty := false, path := l.set 0 k, onkey := false } := by
  subst hl
  simp [step, hon, seti, hpos, hlen]

theorem step_value (st : PState) (v : Scalar)
    (hon : st.onkey = false) (hm : st.inmap = true) (ha : st.inarr = false)
    (hpos : st.pos = 0) (hlen : 0 < st.path.length) :
    step st (Tok.scalar v) =
      some { st with
             empty := false
             onkey := true
             pairs := st.pairs ++ [⟨String.intercalate pathd (st.path.take 1), v⟩] } := by
  have h1 : (1 : Int).toNat ≤ st.path.length := by omega
  have h2 : 1 ≤ st.path.length := hlen
  simp [step, hon, hm, ha, slicei, hpos, h1, h2]

theorem flatFieldsLoop (fs : List (String × Scalar)) : ∀ st : PState,
    st.onkey = true → st.inmap = true → st.inarr = false →
    st.pos = 0 → 0 < st.path.length →
    ∃ st' : PState,
      runToks st (toToksFields (fs.map (fun p => (p.1, J.s p.2)))) = some st' ∧
      st'.pairs = st.pairs ++ fs.map (fun p => Pair.mk p.1 p.2) ∧
      st'.onkey = true ∧ st'.inmap = true ∧ st'.inarr = false ∧
      st'.pos = 0 ∧ 0 < st'.path.length := by
  induction fs with
  | nil =>
    intro st h1 h2 h3 h4 h5
    exact ⟨st, by simp [toToksFields, runToks], by simp, h1, h2, h3, h4, h5⟩
  | cons f rest ih =>
    intro st h1 h2 h3 h4 h5
    have hd : toToksFields ((f :: rest).map (fun p => (p.1, J.s p.2))) =
        Tok.scalar (Scalar.str f.1) :: Tok.scalar f.2 ::
          toToksFields (rest.map (fun p => (p.1, J.s p.2))) := by
      simp [toToksFields, toToks]
    set st1 : PState :=
      { st with empty := false, path := st.path.set 0 f.1, onkey := false } with hst1
    have hk : step st (Tok.scalar (Scalar.str f.1)) = some st1 :=
      step_key st f.1 h1 h4 h5 rfl
    have hv : step st1 (Tok.scalar f.2) =
        some { st1 with
               empty := false
               onkey := true
               pairs := st1.pairs ++ [⟨String.intercalate pathd (st1.path.take 1), f.2⟩] } :=
      step_value st1 f.2 (by simp [hst1]) (by simp [hst1, h2]) (by simp [hst1, h3])
        (by simp [hst1, h4]) (by simp [hst1, h5])
    have hkey : String.intercalate pathd (st1.path.take 1) = f.1 := by
      rw [hst1]
      show String.intercalate pathd ((st.path.set 0 f.1).take 1) = f.1
      rw [take_one_set st.path f.1 h5]
      rfl
    set st2 : PState :=
      { st1 with
        empty := false
        onkey := true
        pairs := st1.pairs ++ [⟨String.intercalate pathd (st1.path.take 1), f.2⟩] } with hst2
    obtain ⟨st', hrun, hpairs, i1, i2, i3, i4, i5⟩ :=
      ih st2 (by simp [hst2]) (by simp [hst2, hst1, h2]) (by simp [hst2, hst1, h3])
        (by simp [hst2, hst1, h4]) (by simp [hst2, hst1, h5])
    refine ⟨st', ?_, ?_, i1, i2, i3, i4, i5⟩
    · rw [hd, runToks_cons, hk]
      show runToks st1 (Tok.scalar f.2 :: toToksFields (rest.map (fun p => (p.1, J.s p.2)))) = some st'
      rw [runToks_cons, hv]
      exact hrun
    · rw [hpairs]
      simp [hst2, hst1, hkey, List.append_assoc]

/-- Claim C1: the claim says flattening the document with key "foo" holding
the array [1, 2] produces the pairs ("foo.[0]", 1) and ("foo.[1]", 2).
Evaluating parseJSON at that document shows the code instead produces
("[0]", 1) and ("[1]", 2): because `arrkey` is captured from `path[pos]`
only when `pos > 0`, a value key at depth index 0 is discarded and the
bracketed index overwrites its path slot, contradicting the package's own
doc comment (which renders `hobbies.[0]`). -/
theorem array_under_key_drops_parent :
    parseJSON (toToks (J.obj [("foo", J.arr [J.s (Scalar.num 1), J.s (Scalar.num 2)])])) none =
      some (Except.ok [⟨"[0]", Scalar.num 1⟩, ⟨"[1]", Scalar.num 2⟩]) ∧
    parseJSON (toToks (J.obj [("foo", J.arr [J.s (Scalar.num 1), J.s (Scalar.num 2)])])) none ≠
      some (Except.ok [⟨"foo.[0]", Scalar.num 1⟩, ⟨"foo.[1]", Scalar.num 2⟩]) := by
  have h1 : parseJSON
      (toToks (J.obj [("foo", J.arr [J.s (Scalar.num 1), J.s (Scalar.num 2)])])) none =
      some (Except.ok [⟨"[0]", Scalar.num 1⟩, ⟨"[1]", Scalar.num 2⟩]) := rfl
  refine ⟨h1, ?_⟩
  rw [h1]
  simp

/-- Claim C2: the claim says the number of emitted pairs equals the number
of leaf positions.  For the document with "a" holding an object whose only
field "b" holds an empty object, there is exactly one leaf position, yet
parseJSON emits two pairs: the shared `empty` flag is not cleared when a
child container closes, so the enclosing object is also reported empty. -/
theorem nested_empty_object_double_count :
    parseJSON (toToks (J.obj [("a", J.obj [("b", J.obj [])])])) none =
      some (Except.ok [⟨"a.b.", Scalar.null⟩, ⟨"a.b", Scalar.null⟩]) ∧
    leafPositions (J.obj [("a", J.obj [("b", J.obj [])])]) = 1 :=
  ⟨rfl, rfl⟩

/-- Claim C3: the claim says array indices are decimal numerals 0, 1, 2, …
for every element, so an 11-element array reaches index [10].  Evaluating
parseJSON on the array of the numbers 0 through 10 shows the 11th element
is keyed "[:]": the code increments the single ASCII byte of `arridx[1]`,
and the byte after '9' is ':'. -/
theorem array_index_ten_not_decimal :
    parseJSON (toToks (J.arr [J.s (Scalar.num 0), J.s (Scalar.num 1), J.s (Scalar.num 2),
        J.s (Scalar.num 3), J.s (Scalar.num 4), J.s (Scalar.num 5), J.s (Scalar.num 6),
        J.s (Scalar.num 7), J.s (Scalar.num 8), J.s (Scalar.num 9), J.s (Scalar.num 10)])) none =
      some (Except.ok [⟨"[0]", Scalar.num 0⟩, ⟨"[1]", Scalar.num 1⟩, ⟨"[2]", Scalar.num 2⟩,
        ⟨"[3]", Scalar.num 3⟩, ⟨"[4]", Scalar.num 4⟩, ⟨"[5]", Scalar.num 5⟩,
        ⟨"[6]", Scalar.num 6⟩, ⟨"[7]", Scalar.num 7⟩, ⟨"[8]", Scalar.num 8⟩,
        ⟨"[9]", Scalar.num 9⟩, ⟨"[:]", Scalar.num 10⟩]) := rfl

/-- Claim C4: the claim says a non-root empty container yields exactly one
pair keyed by its own path with no trailing separator, so the object with
"foo" holding an empty object flattens to [("foo", null)], and the same
holds for an empty container that is an array element.  Evaluating
parseJSON shows the emitted key is "foo." (the join `path[:pos+1]` at the
closing brace includes the never-written segment at the new depth), and an
empty container that is an array element emits no pair at all (`pos` is
still -1 or 0 there, failing the `pos > 0` / `pos >= 0` guards). -/
theorem empty_nested_object_trailing_dot :
    parseJSON (toToks (J.obj [("foo", J.obj [])])) none =
      some (Except.ok [⟨"foo.", Scalar.null⟩]) ∧
    parseJSON (toToks (J.arr [J.arr []])) none = some (Except.ok []) :=
  ⟨rfl, rfl⟩

/-- Claim C5: the claim says every failing tokenization makes parseJSON
return the tokenizer's error verbatim with no pairs.  On the truncated
input whose valid token prefix is `[`, `{`, `}`, `5` followed by the
tokenizer error, the code never reaches the error: processing the token
`5` with `onkey` set and `pos = -1` writes `path[-1]` (and asserts a
number is a string), a runtime panic, modelled as `none`. -/
theorem token_error_lost_to_panic :
    parseJSON [Tok.lsquare, Tok.lbrace, Tok.rbrace, Tok.scalar (Scalar.num 5)]
      (some "unexpected end of JSON input") = none := rfl

/-- Claim C6: a root-level empty object or empty array flattens to zero
pairs; the root container emits no self-pair (the `pos > 0` guard fails at
`pos = 0` for the object, and the `pos >= 0` guard fails at `pos = -1` for
the array). -/
theorem root_empty_containers_emit_nothing :
    parseJSON (toToks (J.obj [])) none = some (Except.ok []) ∧
    parseJSON (toToks (J.arr [])) none = some (Except.ok []) :=
  ⟨rfl, rfl⟩

/-- Claim C7: a document that is a bare top-level scalar flattens to
exactly one pair whose key is the empty string (the join of
`path[:pos+1]` with `pos = -1` is the join of no segments) and whose value
is that scalar. -/
theorem bare_root_scalar_empty_key (s : Scalar) :
    parseJSON (toToks (J.s s)) none = some (Except.ok [⟨"", s⟩]) := rfl

/-- Claim C8: the claim says flattening every well-formed document
succeeds with every `path[pos]` write in bounds.  The well-formed document
`[{}, 5]` refutes it: after the inner object closes, `onkey` is true and
`pos` is -1, so the scalar element 5 writes `path[-1]`, a bounds panic,
modelled as `none`.  (The doubling reallocation at `pos == len(path)` is
as claimed; the failure is a negative index, not a capacity miss.) -/
theorem wellformed_document_panics :
    parseJSON (toToks (J.arr [J.obj [], J.s (Scalar.num 5)])) none = none := rfl

/-- Claim C9: flattening is the identity on flat-map-shaped documents: a
depth-1 object all of whose field values are scalars flattens to exactly
one pair per field, with the field name unchanged as the key and the
field's scalar as the value, in field order. -/
theorem flat_map_reflatten_identity (fs : List (String × Scalar)) :
    parseJSON (toToks (J.obj (fs.map (fun p => (p.1, J.s p.2))))) none =
      some (Except.ok (fs.map (fun p => Pair.mk p.1 p.2))) := by
  obtain ⟨st', hrun, hpairs, i1, i2, i3, i4, i5⟩ :=
    flatFieldsLoop fs
      { pairs := [], inmap := true, inarr := false, empty := true, onkey := true,
        arridx1 := 48, arrkey := "", path := List.replicate 10 "", pos := 0 }
      rfl rfl rfl rfl (by simp)
  have hbr : step st' Tok.rbrace =
      some { st' with inmap := false, onkey := true, pos := st'.pos - 1 } := by
    simp [step, i4]
  have hrun2 : runToks initState (toToks (J.obj (fs.map (fun p => (p.1, J.s p.2))))) =
      some { st' with inmap := false, onkey := true, pos := st'.pos - 1 } := by
    have htok : toToks (J.obj (fs.map (fun p => (p.1, J.s p.2)))) =
        Tok.lbrace :: (toToksFields (fs.map (fun p => (p.1, J.s p.2))) ++ [Tok.rbrace]) := by
      simp [toToks]
    rw [htok]
    show runToks
        { pairs := [], inmap := true, inarr := false, empty := true, onkey := true,
          arridx1 := 48, arrkey := "", path := List.replicate 10 "", pos := 0 }
        (toToksFields (fs.map (fun p => (p.1, J.s p.2))) ++ [Tok.rbrace]) =
      some { st' with inmap := false, onkey := true, pos := st'.pos - 1 }
    rw [runToks_append, hrun]
    show runToks st' [Tok.rbrace] = _
    rw [runToks_cons, hbr]
    rfl
  simp [parseJSON, hrun2, hpairs]

/-- Claim C10: for every Go value whose standard JSON encoding succeeds,
EncodeMap writes exactly what ConvertMap writes when given that encoding
as its input stream, and EncodeArray likewise agrees with ConvertArray:
both paths run parseJSON on the same token stream and hand the same pairs
to the same marshaller. -/
theorem encode_agrees_with_convert (v : GoValue) (ts : List Tok)
    (h : goEncode v = Except.ok ts) :
    EncodeMap v = ConvertMap ts none ∧ EncodeArray v = ConvertArray ts none := by
  cases v with
  | json j =>
    have h' : toToks j = ts := by
      simpa [goEncode] using h
    subst h'
    exact ⟨rfl, rfl⟩
  | unsupported msg =>
    simp [goEncode] at h

/-- Witness for claim C10 at the concrete value encoding to the document
with the single field "a" holding 1. -/
theorem encode_agrees_with_convert_witness :
    goEncode (GoValue.json (J.obj [("a", J.s (Scalar.num 1))])) =
      Except.ok (toToks (J.obj [("a", J.s (Scalar.num 1))])) ∧
    (EncodeMap (GoValue.json (J.obj [("a", J.s (Scalar.num 1))])) =
       ConvertMap (toToks (J.obj [("a", J.s (Scalar.num 1))])) none ∧
     EncodeArray (GoValue.json (J.obj [("a", J.s (Scalar.num 1))])) =
       ConvertArray (toToks (J.obj [("a", J.s (Scalar.num 1))])) none) :=
  ⟨rfl, encode_agrees_with_convert _ _ rfl⟩

end Flatjson
